import Mathlib

/-!
Shallow embedding of the UN/LOCODE organization-code pipeline
(source: UNLOCODE.py).  Python strings are modelled as lists of
characters; the relevant fragment of the standard string API
(upper, strip, split, slicing, substring test) is modelled over
ASCII, which covers every string the program manipulates.
-/

namespace Unlocode

/-- Embed a Lean string literal as a Python-style character list. -/
def pyStr (s : String) : List Char := s.data

/-- The whitespace characters recognised by str.split and str.strip. -/
def isPySpace (c : Char) : Bool :=
  c == ' ' || c == '\t' || c == '\n' || c == '\r' || c == '\x0b' || c == '\x0c'

/-- Python str.upper, restricted to ASCII case mapping. -/
def pyUpper (s : List Char) : List Char := s.map Char.toUpper

/-- Python str.strip: drop leading and trailing whitespace. -/
def pyStrip (s : List Char) : List Char :=
  ((s.dropWhile isPySpace).reverse.dropWhile isPySpace).reverse

/-- Does the needle (first argument) start the haystack (second argument)? -/
def startsWith : List Char → List Char → Bool
  | [], _ => true
  | _ :: _, [] => false
  | a :: as, b :: bs => a == b && startsWith as bs

/-- Python membership test needle in haystack for strings. -/
def pyIn (needle : List Char) : List Char → Bool
  | [] => startsWith needle []
  | c :: rest => startsWith needle (c :: rest) || pyIn needle rest

/-- Helper for pySplit: accumulate the current word in reverse. -/
def pySplitAux : List Char → List Char → List (List Char)
  | [], acc => if acc = [] then [] else [acc.reverse]
  | c :: rest, acc =>
    if isPySpace c then
      if acc = [] then pySplitAux rest [] else acc.reverse :: pySplitAux rest []
    else
      pySplitAux rest (c :: acc)

/-- Python str.split() with no separator: split on runs of whitespace,
discarding empty words. -/
def pySplit (s : List Char) : List (List Char) := pySplitAux s []

/-- The simulated UNLOCODE database from the source: an insertion-ordered
mapping from country to an insertion-ordered mapping from city key to a
5-character location code. -/
def UNLOCODE_DB : List (List Char × List (List Char × List Char)) :=
  [ (pyStr "France",
      [ (pyStr "MARSEILLE", pyStr "FRMRS"),
        (pyStr "MARSEILLE-EN-BEAUVAISIS", pyStr "FRMBE") ]),
    (pyStr "United States",
      [ (pyStr "NEW YORK", pyStr "USNYC"),
        (pyStr "LOS ANGELES", pyStr "USLAX") ]),
    (pyStr "Germany",
      [ (pyStr "BERLIN", pyStr "DEBER") ]),
    (pyStr "China",
      [ (pyStr "BEIJING", pyStr "CNBJS"),
        (pyStr "SHANGHAI", pyStr "CNSHA") ]) ]

/-- UNLOCODE_DB.get(country, \x7b\x7d): association-list lookup with the
empty table as default. -/
def dbGet (country : List Char) : List (List Char × List Char) :=
  match UNLOCODE_DB.find? (fun p => p.1 == country) with
  | some p => p.2
  | none => []

/-- The city-matching loop of simulate_research_agent: scan the country
table in insertion order and return the code of the first key that either
equals the normalized city or contains it as a substring; return the
sentinel UNK00 if no key matches. -/
def lookupCity : List (List Char × List Char) → List Char → List Char
  | [], _ => pyStr "UNK00"
  | (key, code) :: rest, cityUpper =>
    if pyUpper key = cityUpper ∨ pyIn cityUpper (pyUpper key) = true then code
    else lookupCity rest cityUpper

/-- simulate_research_agent(country, city): resolve a location code from
the static database, normalizing the city with upper() and strip(). -/
def simulate_research_agent (country city : List Char) : List Char :=
  lookupCity (dbGet country) (pyStrip (pyUpper city))

/-- generate_company_abbreviation(company_name): the word-count rule.
Three or more words: first 3 characters of word 1 and of word 2 plus the
first character of word 3, uppercased; two words: first 3 characters of
each, uppercased; otherwise: the name with spaces removed, truncated to 6
characters, uppercased. -/
def generate_company_abbreviation (company_name : List Char) : List Char :=
  let words := pySplit company_name
  if 3 ≤ words.length then
    pyUpper ((words.getD 0 []).take 3) ++ pyUpper ((words.getD 1 []).take 3)
      ++ pyUpper ((words.getD 2 []).take 1)
  else if words.length = 2 then
    pyUpper ((words.getD 0 []).take 3) ++ pyUpper ((words.getD 1 []).take 3)
  else
    pyUpper ((company_name.filter (fun c => c ≠ ' ')).take 6)

/-- Fallible variant of generate_company_abbreviation in which the
character access words[2][0] of the three-word branch is modelled exactly:
it returns none when the third word is empty, mirroring the IndexError
Python would raise there. -/
def generate_company_abbreviation_opt (company_name : List Char) :
    Option (List Char) :=
  let words := pySplit company_name
  if 3 ≤ words.length then
    match (words.getD 2 []).head? with
    | some c =>
        some (pyUpper ((words.getD 0 []).take 3)
          ++ pyUpper ((words.getD 1 []).take 3) ++ [c.toUpper])
    | none => none
  else if words.length = 2 then
    some (pyUpper ((words.getD 0 []).take 3) ++ pyUpper ((words.getD 1 []).take 3))
  else
    some (pyUpper ((company_name.filter (fun c => c ≠ ' ')).take 6))

/-- simulate_lookup_agent(unlocode, company_name): generate the company
abbreviation, extract the location segment (the last 3 characters of the
unlocode when its length is at least 5, the literal UNK otherwise) and
concatenate abbreviation and segment into the organization code.  Returns
(org_code, company_abbr, location_code). -/
def simulate_lookup_agent (unlocode company_name : List Char) :
    List Char × List Char × List Char :=
  let company_abbr := generate_company_abbreviation company_name
  let location_code :=
    if 5 ≤ unlocode.length then unlocode.drop (unlocode.length - 3)
    else pyStr "UNK"
  (company_abbr ++ location_code, company_abbr, location_code)

/-- Fallible variant of simulate_lookup_agent built on the fallible
abbreviation generator. -/
def simulate_lookup_agent_opt (unlocode company_name : List Char) :
    Option (List Char × List Char × List Char) :=
  match generate_company_abbreviation_opt company_name with
  | none => none
  | some company_abbr =>
    let location_code :=
      if 5 ≤ unlocode.length then unlocode.drop (unlocode.length - 3)
      else pyStr "UNK"
    some (company_abbr ++ location_code, company_abbr, location_code)

/-- simulate_critic_agent(org_code): the fixed-template validation
message referencing the organization code. -/
def simulate_critic_agent (org_code : List Char) : List Char :=
  pyStr "Validated: The Organization Code \x27" ++ org_code
    ++ pyStr "\x27 is correctly generated based on the UNLOCODE data."

/-- The aggregate result record assembled by lead_agent_orchestrate. -/
structure LookupResult where
  country : List Char
  city : List Char
  company_name : List Char
  unlocode : List Char
  company_abbr : List Char
  location_code : List Char
  org_code : List Char
  critique : List Char

/-- lead_agent_orchestrate(country, city, company_name): run the research
agent, the lookup agent and the critic agent in order, threading each
output into the next stage, and aggregate the final record with the city
re-uppercased for display. -/
def lead_agent_orchestrate (country city company_name : List Char) :
    LookupResult :=
  let unlocode := simulate_research_agent country city
  let r := simulate_lookup_agent unlocode company_name
  let critique := simulate_critic_agent r.1
  ⟨country, pyUpper city, company_name, unlocode, r.2.1, r.2.2, r.1, critique⟩

/-- Fallible variant of the orchestrator built on the fallible lookup
agent. -/
def lead_agent_orchestrate_opt (country city company_name : List Char) :
    Option LookupResult :=
  let unlocode := simulate_research_agent country city
  match simulate_lookup_agent_opt unlocode company_name with
  | none => none
  | some r =>
    some ⟨country, pyUpper city, company_name, unlocode, r.2.1, r.2.2, r.1,
      simulate_critic_agent r.1⟩

/-! Helper lemmas about the lookup loop and the static database. -/

/-- The matching loop either falls through to the sentinel or returns the
code of some entry of the table. -/
theorem lookupCity_cases (t : List (List Char × List Char)) (cu : List Char) :
    lookupCity t cu = pyStr "UNK00" ∨ ∃ p ∈ t, lookupCity t cu = p.2 := by
  induction t with
  | nil => left; rfl
  | cons hd tl ih =>
    obtain ⟨key, code⟩ := hd
    by_cases h : pyUpper key = cu ∨ pyIn cu (pyUpper key) = true
    · right
      refine ⟨(key, code), List.mem_cons_self _ _, ?_⟩
      simp only [lookupCity, if_pos h]
    · rcases ih with h2 | ⟨p, hp, h2⟩
      · left
        simpa only [lookupCity, if_neg h] using h2
      · right
        exact ⟨p, List.mem_cons_of_mem _ hp, by simpa only [lookupCity, if_neg h] using h2⟩

/-- If no entry of the table matches, the loop returns the sentinel. -/
theorem lookupCity_nomatch (t : List (List Char × List Char)) (cu : List Char)
    (h : ∀ p ∈ t, ¬(pyUpper p.1 = cu ∨ pyIn cu (pyUpper p.1) = true)) :
    lookupCity t cu = pyStr "UNK00" := by
  induction t with
  | nil => rfl
  | cons hd tl ih =>
    obtain ⟨key, code⟩ := hd
    have hk := h (key, code) (List.mem_cons_self _ _)
    simp only [lookupCity, if_neg hk]
    exact ih fun p hp => h p (List.mem_cons_of_mem _ hp)

/-- dict.get returns either the empty default or the table of some
database entry. -/
theorem dbGet_cases (country : List Char) :
    dbGet country = [] ∨ ∃ p ∈ UNLOCODE_DB, dbGet country = p.2 := by
  unfold dbGet
  cases h : UNLOCODE_DB.find? (fun p => p.1 == country) with
  | none => left; rfl
  | some p => right; exact ⟨p, List.mem_of_find?_eq_some h, rfl⟩

/-- In every country table, looking up a stored key returns exactly that
entry: no earlier key of the same table captures it by equality or by the
substring fallback. -/
theorem db_exact_match :
    ∀ p ∈ UNLOCODE_DB, ∀ q ∈ p.2, lookupCity p.2 (pyUpper q.1) = q.2 := by decide

/-- Every stored city key is already normalized: stripping and uppercasing
leave it unchanged. -/
theorem db_keys_normal :
    ∀ p ∈ UNLOCODE_DB, ∀ q ∈ p.2, pyStrip (pyUpper q.1) = pyUpper q.1 := by decide

/-- Every stored location code has length 5. -/
theorem db_codes_len :
    ∀ p ∈ UNLOCODE_DB, ∀ q ∈ p.2, q.2.length = 5 := by decide

/-- No stored location code has the trailing segment UNK. -/
theorem db_segments_ne_UNK :
    ∀ p ∈ UNLOCODE_DB, ∀ q ∈ p.2, q.2.drop (q.2.length - 3) ≠ pyStr "UNK" := by decide

/-- Exact-match precedence: whenever the normalized city coincides with a
stored key of the resolved country table, the research agent returns that
key entry. -/
theorem research_exact (country city key code : List Char)
    (hmem : (key, code) ∈ dbGet country)
    (hcity : pyStrip (pyUpper city) = pyUpper key) :
    simulate_research_agent country city = code := by
  rcases dbGet_cases country with h | ⟨p, hp, h⟩
  · rw [h] at hmem
    simp at hmem
  · unfold simulate_research_agent
    rw [hcity, h]
    rw [h] at hmem
    exact db_exact_match p hp (key, code) hmem

/-- The research agent always returns a string of length exactly 5. -/
theorem research_len (country city : List Char) :
    (simulate_research_agent country city).length = 5 := by
  unfold simulate_research_agent
  rcases lookupCity_cases (dbGet country) (pyStrip (pyUpper city)) with h | ⟨q, hq, h⟩
  · rw [h]; rfl
  · rw [h]
    rcases dbGet_cases country with h2 | ⟨p, hp, h2⟩
    · rw [h2] at hq; simp at hq
    · rw [h2] at hq
      exact db_codes_len p hp q hq

/-- The research agent returns the sentinel or a code stored in the
database. -/
theorem research_result_cases (country city : List Char) :
    simulate_research_agent country city = pyStr "UNK00" ∨
      ∃ p ∈ UNLOCODE_DB, ∃ q ∈ p.2, simulate_research_agent country city = q.2 := by
  unfold simulate_research_agent
  rcases lookupCity_cases (dbGet country) (pyStrip (pyUpper city)) with h | ⟨q, hq, h⟩
  · left; exact h
  · rcases dbGet_cases country with h2 | ⟨p, hp, h2⟩
    · rw [h2] at hq; simp at hq
    · right
      exact ⟨p, hp, q, by rw [h2] at hq; exact hq, h⟩

/-- The location segment computed by the lookup agent, in closed form. -/
theorem lookup_segment_eq (unlocode name : List Char) :
    (simulate_lookup_agent unlocode name).2.2 =
      if 5 ≤ unlocode.length then unlocode.drop (unlocode.length - 3)
      else pyStr "UNK" := rfl

/-- Every word produced by the whitespace splitter is non-empty. -/
theorem pySplitAux_words_ne_nil (s : List Char) :
    ∀ acc w : List Char, w ∈ pySplitAux s acc → w ≠ [] := by
  induction s with
  | nil =>
    intro acc w hw
    simp only [pySplitAux] at hw
    split at hw
    · simp at hw
    · next h =>
      simp only [List.mem_singleton] at hw
      subst hw
      simpa [List.reverse_eq_nil_iff] using h
  | cons c rest ih =>
    intro acc w hw
    simp only [pySplitAux] at hw
    split at hw
    · split at hw
      · exact ih [] w hw
      · next h =>
        rcases List.mem_cons.mp hw with h1 | h1
        · subst h1
          simpa [List.reverse_eq_nil_iff] using h
        · exact ih [] w h1
    · exact ih (c :: acc) w hw

/-- Every word of pySplit is non-empty (split discards empty words). -/
theorem pySplit_words_ne_nil (s : List Char) : ∀ w ∈ pySplit s, w ≠ [] :=
  fun w hw => pySplitAux_words_ne_nil s [] w hw

/-- The fallible abbreviation generator never fails and agrees with the
total one: the character access to the third word always succeeds. -/
theorem generate_opt_eq (name : List Char) :
    generate_company_abbreviation_opt name =
      some (generate_company_abbreviation name) := by
  unfold generate_company_abbreviation_opt generate_company_abbreviation
  by_cases h3 : 3 ≤ (pySplit name).length
  · have hlt : 2 < (pySplit name).length := by omega
    have hget : (pySplit name).getD 2 [] ∈ pySplit name := by
      rw [List.getD_eq_getElem?_getD, List.getElem?_eq_getElem hlt]
      exact List.getElem_mem _
    have hne := pySplit_words_ne_nil name _ hget
    simp only [if_pos h3]
    cases hw : (pySplit name).getD 2 [] with
    | nil => exact absurd hw hne
    | cons c t => simp [hw, pyUpper]
  · by_cases h2 : (pySplit name).length = 2
    · simp only [if_neg h3, if_pos h2]
    · simp only [if_neg h3, if_neg h2]

/-! Claim theorems. -/

/-- C1 (corrected): with the sentinel location code UNK00 the lookup agent
takes the length-at-least-5 branch, so the propagated segment is K00, the
last 3 characters of UNK00, and the organization code is the abbreviation
followed by K00; concretely assemble(UNK00, ACME) yields (ACMEK00, K00),
not (ACMEUNK, UNK). -/
theorem C1_sentinel_segment_is_K00 :
    (∀ name : List Char,
      (simulate_lookup_agent (pyStr "UNK00") name).2.2 = pyStr "K00" ∧
      (simulate_lookup_agent (pyStr "UNK00") name).1 =
        generate_company_abbreviation name ++ pyStr "K00") ∧
    simulate_lookup_agent (pyStr "UNK00") (pyStr "ACME") =
      (pyStr "ACMEK00", pyStr "ACME", pyStr "K00") :=
  ⟨fun _ => ⟨rfl, rfl⟩, by decide⟩

/-- C1 counterexample: the claim as stated is false at the concrete input
assemble(UNK00, ACME): the organization code is not ACMEUNK and the
segment is not UNK. -/
theorem C1_counterexample :
    ¬((simulate_lookup_agent (pyStr "UNK00") (pyStr "ACME")).1 = pyStr "ACMEUNK" ∧
      (simulate_lookup_agent (pyStr "UNK00") (pyStr "ACME")).2.2 = pyStr "UNK") := by
  decide

/-- C2: the research agent always returns a 5-character string, either a
stored code or the sentinel UNK00; hence when its result is fed to the
lookup agent the length test succeeds, the segment is the last 3
characters of the resolved code, the UNK fallback is unreachable, and for
the sentinel UNK00 the segment is K00. -/
theorem C2_resolved_code_length_five :
    ∀ country city name : List Char,
      (simulate_research_agent country city).length = 5 ∧
      (simulate_research_agent country city = pyStr "UNK00" ∨
        ∃ p ∈ UNLOCODE_DB, ∃ q ∈ p.2,
          simulate_research_agent country city = q.2) ∧
      (simulate_lookup_agent (simulate_research_agent country city) name).2.2 =
        (simulate_research_agent country city).drop
          ((simulate_research_agent country city).length - 3) ∧
      (simulate_lookup_agent (simulate_research_agent country city) name).2.2 ≠
        pyStr "UNK" ∧
      (simulate_lookup_agent (pyStr "UNK00") name).2.2 = pyStr "K00" := by
  intro country city name
  have hlen := research_len country city
  have hseg := lookup_segment_eq (simulate_research_agent country city) name
  have hif : 5 ≤ (simulate_research_agent country city).length := by omega
  refine ⟨hlen, research_result_cases country city, ?_, ?_, rfl⟩
  · rw [hseg, if_pos hif]
  · rw [hseg, if_pos hif]
    rcases research_result_cases country city with h | ⟨p, hp, q, hq, h⟩
    · rw [h]; decide
    · rw [h]
      exact db_segments_ne_UNK p hp q hq

/-- C3 counterexample: the non-empty company name a yields the
abbreviation A of length 1, refuting the claimed lower bound of 3. -/
theorem C3_counterexample :
    pyStr "a" ≠ ([] : List Char) ∧
      (generate_company_abbreviation (pyStr "a")).length < 3 := by decide

/-- C3 (corrected): the abbreviation length is at most 7 for every company
name; the claimed lower bound of 3 does not hold. -/
theorem C3_length_at_most_seven :
    ∀ s : List Char, (generate_company_abbreviation s).length ≤ 7 := by
  intro s
  have h1 := ((pySplit s).getD 0 []).length_take_le 3
  have h2 := ((pySplit s).getD 1 []).length_take_le 3
  have h3 := ((pySplit s).getD 2 []).length_take_le 1
  have h4 := (s.filter (fun c => c ≠ ' ')).length_take_le 6
  by_cases ha : 3 ≤ (pySplit s).length
  · simp only [generate_company_abbreviation, if_pos ha, pyUpper,
      List.length_append, List.length_map]
    omega
  · by_cases hb : (pySplit s).length = 2
    · simp only [generate_company_abbreviation, if_neg ha, if_pos hb, pyUpper,
        List.length_append, List.length_map]
      omega
    · simp only [generate_company_abbreviation, if_neg ha, if_neg hb, pyUpper,
        List.length_map]
      omega

/-- C4: exact match takes precedence over the substring fallback: whenever
the normalized city equals a stored key of the country table, the research
agent returns that key entry, even when substring candidates exist. -/
theorem C4_exact_match_precedence (country city key code : List Char)
    (hmem : (key, code) ∈ dbGet country)
    (hexact : pyStrip (pyUpper city) = pyUpper key) :
    simulate_research_agent country city = code :=
  research_exact country city key code hmem hexact

/-- C4 witness: for France and MARSEILLE both an exact candidate
(MARSEILLE) and a substring candidate (MARSEILLE-EN-BEAUVAISIS) exist,
and the exact match wins. -/
theorem C4_witness :
    (pyStr "MARSEILLE", pyStr "FRMRS") ∈ dbGet (pyStr "France") ∧
    pyIn (pyStr "MARSEILLE") (pyUpper (pyStr "MARSEILLE-EN-BEAUVAISIS")) = true ∧
    simulate_research_agent (pyStr "France") (pyStr "MARSEILLE") = pyStr "FRMRS" :=
  ⟨by decide, by decide,
    C4_exact_match_precedence (pyStr "France") (pyStr "MARSEILLE")
      (pyStr "MARSEILLE") (pyStr "FRMRS") (by decide) (by decide)⟩

/-- C5: the abbreviation generator follows the word-count rule: with at
least 3 words it concatenates the first 3 characters of words 1 and 2 and
the first character of word 3, uppercased; with exactly 2 words the first
3 characters of each, uppercased; with at most 1 word the first 6
characters of the name with spaces removed, uppercased; the four concrete
examples of the specification hold. -/
theorem C5_word_count_rule :
    (∀ s : List Char, 3 ≤ (pySplit s).length →
      generate_company_abbreviation s =
        pyUpper (((pySplit s).getD 0 []).take 3)
          ++ pyUpper (((pySplit s).getD 1 []).take 3)
          ++ pyUpper (((pySplit s).getD 2 []).take 1)) ∧
    (∀ s : List Char, (pySplit s).length = 2 →
      generate_company_abbreviation s =
        pyUpper (((pySplit s).getD 0 []).take 3)
          ++ pyUpper (((pySplit s).getD 1 []).take 3)) ∧
    (∀ s : List Char, (pySplit s).length ≤ 1 →
      generate_company_abbreviation s =
        pyUpper ((s.filter (fun c => c ≠ ' ')).take 6)) ∧
    generate_company_abbreviation (pyStr "Acme Global Logistics") = pyStr "ACMGLOL" ∧
    generate_company_abbreviation (pyStr "Acme Global") = pyStr "ACMGLO" ∧
    generate_company_abbreviation (pyStr "Acme") = pyStr "ACME" ∧
    generate_company_abbreviation (pyStr "Acmecorp") = pyStr "ACMECO" := by
  refine ⟨?_, ?_, ?_, by decide, by decide, by decide, by decide⟩
  · intro s h
    simp only [generate_company_abbreviation, if_pos h]
  · intro s h
    have h3 : ¬3 ≤ (pySplit s).length := by omega
    simp only [generate_company_abbreviation, if_neg h3, if_pos h]
  · intro s h
    have h3 : ¬3 ≤ (pySplit s).length := by omega
    have h2 : ¬(pySplit s).length = 2 := by omega
    simp only [generate_company_abbreviation, if_neg h3, if_neg h2]

/-- C5 witness: the three-word branch of the rule, instantiated at the
concrete name Acme Global Logistics. -/
theorem C5_witness :
    3 ≤ (pySplit (pyStr "Acme Global Logistics")).length ∧
    generate_company_abbreviation (pyStr "Acme Global Logistics") =
      pyUpper (((pySplit (pyStr "Acme Global Logistics")).getD 0 []).take 3)
        ++ pyUpper (((pySplit (pyStr "Acme Global Logistics")).getD 1 []).take 3)
        ++ pyUpper (((pySplit (pyStr "Acme Global Logistics")).getD 2 []).take 1) :=
  ⟨by decide, C5_word_count_rule.1 (pyStr "Acme Global Logistics") (by decide)⟩

/-- C6: for every pair stored in the directory the research agent returns
the exact stored code, and for every pair matched by no key of the
resolved country table (in particular any unknown country) it returns the
sentinel UNK00; no error is possible, the function is total. -/
theorem C6_stored_pairs_and_sentinel :
    (∀ country key code : List Char, (key, code) ∈ dbGet country →
      simulate_research_agent country key = code) ∧
    (∀ country city : List Char,
      (∀ p ∈ dbGet country,
        ¬(pyUpper p.1 = pyStrip (pyUpper city) ∨
          pyIn (pyStrip (pyUpper city)) (pyUpper p.1) = true)) →
      simulate_research_agent country city = pyStr "UNK00") := by
  constructor
  · intro country key code hmem
    rcases dbGet_cases country with h | ⟨p, hp, h⟩
    · rw [h] at hmem
      simp at hmem
    · refine research_exact country key key code hmem ?_
      rw [h] at hmem
      exact db_keys_normal p hp (key, code) hmem
  · intro country city h
    exact lookupCity_nomatch (dbGet country) (pyStrip (pyUpper city)) h

/-- C6 witness: the stored pair (France, MARSEILLE) resolves to FRMRS, and
the unregistered pair (Spain, MADRID) resolves to the sentinel UNK00. -/
theorem C6_witness :
    (pyStr "MARSEILLE", pyStr "FRMRS") ∈ dbGet (pyStr "France") ∧
    simulate_research_agent (pyStr "France") (pyStr "MARSEILLE") = pyStr "FRMRS" ∧
    simulate_research_agent (pyStr "Spain") (pyStr "MADRID") = pyStr "UNK00" :=
  ⟨by decide,
    C6_stored_pairs_and_sentinel.1 (pyStr "France") (pyStr "MARSEILLE")
      (pyStr "FRMRS") (by decide),
    C6_stored_pairs_and_sentinel.2 (pyStr "Spain") (pyStr "MADRID") (by decide)⟩

/-- C7: for every location code string and company name, the lookup agent
produces a 3-character location segment, the organization code is exactly
the company abbreviation followed by that segment, and its length is the
abbreviation length plus 3. -/
theorem C7_org_code_concatenation :
    ∀ unlocode name : List Char,
      (simulate_lookup_agent unlocode name).2.2.length = 3 ∧
      (simulate_lookup_agent unlocode name).1 =
        (simulate_lookup_agent unlocode name).2.1
          ++ (simulate_lookup_agent unlocode name).2.2 ∧
      (simulate_lookup_agent unlocode name).1.length =
        (simulate_lookup_agent unlocode name).2.1.length + 3 ∧
      (simulate_lookup_agent unlocode name).2.1 =
        generate_company_abbreviation name := by
  intro unlocode name
  have hseg : (simulate_lookup_agent unlocode name).2.2.length = 3 := by
    rw [lookup_segment_eq]
    by_cases h : 5 ≤ unlocode.length
    · rw [if_pos h, List.length_drop]
      omega
    · rw [if_neg h]
      decide
  refine ⟨hseg, rfl, ?_, rfl⟩
  have horg : (simulate_lookup_agent unlocode name).1 =
      (simulate_lookup_agent unlocode name).2.1
        ++ (simulate_lookup_agent unlocode name).2.2 := rfl
  rw [horg, List.length_append, hseg]

/-- C8: the orchestrator threads the stages in order: the result record
holds the resolved location code, the generated abbreviation, the
assembled organization code and segment, and the validation message for
that organization code, with the city re-uppercased; end to end, France,
marseille and TEST BY KALAI yield FRMRS, TESBYK and TESBYKMRS. -/
theorem C8_pipeline_threading :
    (∀ country city name : List Char,
      lead_agent_orchestrate country city name =
        ⟨country, pyUpper city, name,
          simulate_research_agent country city,
          (simulate_lookup_agent (simulate_research_agent country city) name).2.1,
          (simulate_lookup_agent (simulate_research_agent country city) name).2.2,
          (simulate_lookup_agent (simulate_research_agent country city) name).1,
          simulate_critic_agent
            ((simulate_lookup_agent (simulate_research_agent country city) name).1)⟩) ∧
    (lead_agent_orchestrate (pyStr "France") (pyStr "marseille")
      (pyStr "TEST BY KALAI")).unlocode = pyStr "FRMRS" ∧
    (lead_agent_orchestrate (pyStr "France") (pyStr "marseille")
      (pyStr "TEST BY KALAI")).company_abbr = pyStr "TESBYK" ∧
    (lead_agent_orchestrate (pyStr "France") (pyStr "marseille")
      (pyStr "TEST BY KALAI")).org_code = pyStr "TESBYKMRS" ∧
    (lead_agent_orchestrate (pyStr "France") (pyStr "marseille")
      (pyStr "TEST BY KALAI")).city = pyStr "MARSEILLE" :=
  ⟨fun _ _ _ => rfl, by decide, by decide, by decide, by decide⟩

/-- C9: the pipeline is total: the fallible variants, in which the
character access to the third word of the abbreviation generator is
modelled exactly, never return none and agree with the total functions,
because whitespace splitting only produces non-empty words. -/
theorem C9_pipeline_total :
    ∀ country city name : List Char,
      lead_agent_orchestrate_opt country city name =
        some (lead_agent_orchestrate country city name) ∧
      generate_company_abbreviation_opt name =
        some (generate_company_abbreviation name) ∧
      ∀ w ∈ pySplit name, w ≠ [] := by
  intro country city name
  have h := generate_opt_eq name
  refine ⟨?_, h, pySplit_words_ne_nil name⟩
  unfold lead_agent_orchestrate_opt lead_agent_orchestrate
    simulate_lookup_agent_opt simulate_lookup_agent
  rw [h]

/-- C10: the country is matched case-sensitively and without trimming:
FRANCE and france resolve no table, so every city yields the sentinel
UNK00, although the country France is registered. -/
theorem C10_country_case_sensitive :
    ∀ city : List Char,
      simulate_research_agent (pyStr "FRANCE") city = pyStr "UNK00" ∧
      simulate_research_agent (pyStr "france") city = pyStr "UNK00" ∧
      dbGet (pyStr "France") ≠ [] :=
  fun _ => ⟨rfl, rfl, by decide⟩

end Unlocode
